import Mathlib

/-!
Verification of the Y-14M report pipeline (`src/app.py`).

The pipeline operates on pandas DataFrames.  We embed a DataFrame as a
list of column labels plus a list of rows, where each row is a list of
cell values aligned with the labels.  Numeric cells are modelled by `Rat`
(exact arithmetic standing in for the int64/float64 columns); cells that
hold text are modelled by `Value.str`.  Operations that can raise a
Python exception (`TypeError`, `ValueError`) return `Except String`.
-/

namespace Y14M

/-- A cell of a DataFrame: a number (int/float column) or a string.
A `num` whose denominator is 1 plays the role of a Python `int`; any other
`num` plays the role of a Python `float` (CSV-parsed floats are dyadic
rationals). -/
inductive Value where
  | num (q : Rat)
  | str (s : String)
deriving DecidableEq, Repr

/-- A pandas DataFrame: column labels plus rows of cells, positionally
aligned.  Duplicate column labels are representable, as in pandas. -/
structure DataFrame where
  cols : List String
  rows : List (List Value)
deriving DecidableEq, Repr

/-- Well-formedness: every row has exactly one cell per column. -/
def DataFrame.WF (df : DataFrame) : Prop :=
  ∀ r ∈ df.rows, r.length = df.cols.length

instance (df : DataFrame) : Decidable df.WF := by
  unfold DataFrame.WF; infer_instance

/-- `df[c]` for a label `c` that occurs once: the cell of each row under
the first column named `c` (a pandas Series as a list of cells). -/
def getCol (df : DataFrame) (c : String) : List Value :=
  match df.cols.findIdx? (· == c) with
  | some i => df.rows.map (fun r => r.getD i (.str ""))
  | none => []

/-- Replace the cells of every column named `c` in one row (`df[c] = vs`
hits all duplicate labels, like pandas). -/
def putCell (cols : List String) (c : String) : List Value → Value → List Value
  | [], _ => []
  | x :: xs, v =>
    match cols with
    | [] => x :: xs
    | k :: ks => (if k = c then v else x) :: putCell ks c xs v

/-- `df[c] = vs` column assignment: overwrite the column(s) labelled `c`
when present, otherwise append a fresh column at the right edge. -/
def setCol (df : DataFrame) (c : String) (vs : List Value) : DataFrame :=
  if c ∈ df.cols then
    ⟨df.cols, (df.rows.zip vs).map (fun rv => putCell df.cols c rv.1 rv.2)⟩
  else
    ⟨df.cols ++ [c], (df.rows.zip vs).map (fun rv => rv.1 ++ [rv.2])⟩

/-- `df[c] = scalar` broadcast assignment. -/
def setColConst (df : DataFrame) (c : String) (v : Value) : DataFrame :=
  setCol df c (df.rows.map (fun _ => v))

/-- The three mandatory canonical columns (`REQUIRED_COLUMNS`). -/
def REQUIRED_COLUMNS : List String := ["MonthlyIncome", "RevolvingUtil", "DPD30_59"]

/-- Python `sep.join(l)`. -/
def joinSep (sep : String) : List String → String
  | [] => ""
  | s :: rest => s ++ (if rest.isEmpty then "" else sep ++ joinSep sep rest)

/-- `validate_data`: raise `ValueError` naming every missing required
column, else succeed. -/
def validate_data (df : DataFrame) : Except String Unit :=
  let missing := REQUIRED_COLUMNS.filter (fun c => ¬ (c ∈ df.cols))
  if missing.isEmpty then .ok ()
  else .error ("Missing required columns: " ++ joinSep ", " missing)

/-- Round an exact rational to the nearest integer, ties to even
(the rounding used by numpy/pandas `round`). -/
def roundHalfEven (q : Rat) : Int :=
  let f : Int := ⌊q⌋
  let frac : Rat := q - (f : Rat)
  if frac < 1/2 then f
  else if frac > 1/2 then f + 1
  else if f % 2 = 0 then f else f + 1

/-- `x.round(2)`: round to 2 decimal places, ties to even. -/
def round2 (q : Rat) : Rat := (roundHalfEven (q * 100) : Rat) / 100

/-- Python string repetition `s * n` (used by `int * str`). -/
def strRepeat (s : String) : Nat → String
  | 0 => ""
  | n + 1 => s ++ strRepeat s n

/-- Python `*` on two cells, as it acts inside an object-dtype pandas
column: number times number multiplies; `int * str` is string
repetition; `float * str` and `str * str` raise `TypeError`. -/
def mulVal : Value → Value → Except String Value
  | .num a, .num b => .ok (.num (a * b))
  | .num a, .str s =>
    if a.den = 1 then .ok (.str (strRepeat s (a.num.toNat)))
    else .error "TypeError: cannot multiply sequence by non-int of type float"
  | .str s, .num a =>
    if a.den = 1 then .ok (.str (strRepeat s (a.num.toNat)))
    else .error "TypeError: cannot multiply sequence by non-int of type float"
  | .str _, .str _ => .error "TypeError: cannot multiply sequence by non-int of type str"

/-- `Series.round(2)` on one cell: numbers round, strings raise
`TypeError` (ufunc rint does not accept str). -/
def round2Val : Value → Except String Value
  | .num q => .ok (.num (round2 q))
  | .str _ => .error "TypeError: loop of ufunc does not support argument of type str"

/-- `calculate_balances`: dataset-level branch on the presence of
`CurrentBalance`; pass-through rounding when present, otherwise
`MonthlyIncome * RevolvingUtil` rounded. -/
def calculate_balances (df : DataFrame) : Except String DataFrame :=
  if "CurrentBalance" ∈ df.cols then
    match (getCol df "CurrentBalance").mapM round2Val with
    | .error e => .error e
    | .ok vs => .ok (setCol df "OutstandingBalance" vs)
  else
    match (List.zip (getCol df "MonthlyIncome") (getCol df "RevolvingUtil")).mapM
        (fun p => mulVal p.1 p.2) with
    | .error e => .error e
    | .ok prods =>
      match prods.mapM round2Val with
      | .error e => .error e
      | .ok vs => .ok (setCol df "OutstandingBalance" vs)

/-- Header normalization (`c.strip().replace(" ","").replace("-","").replace("_","").lower()`). -/
def normName (c : String) : String :=
  ((((c.trim).replace " " "").replace "-" "").replace "_" "").toLower

def utilSyns : List String :=
  ["revolvingutil", "utilizationrate", "utilization", "revolvingutilizationofunsecuredlines"]

def incomeSyns : List String := ["monthlyincome", "income", "monthlyincomeamt"]

def dpdSyns : List String :=
  ["dpd3059", "dpd30_59", "dpd", "dayspastdue30to59", "numberoftimes3059dayspastduenotworse"]

def balSyns : List String := ["curbalance", "currentbalance", "balance", "statementbalance"]

/-- The label a raw column is renamed to by `alias_map` / `df.rename`:
its canonical target when the normalized name matches a synonym group,
itself otherwise. -/
def aliasTarget (c : String) : String :=
  let n := normName c
  if n ∈ utilSyns then "RevolvingUtil"
  else if n ∈ incomeSyns then "MonthlyIncome"
  else if n ∈ dpdSyns then "DPD30_59"
  else if n ∈ balSyns then "CurrentBalance"
  else c

/-- `df.rename(columns=alias_map)`: every label is mapped independently;
duplicate resulting labels are kept, as in pandas. -/
def applyAlias (df : DataFrame) : DataFrame :=
  ⟨df.cols.map aliasTarget, df.rows⟩

/-- Python `max` of two cells (object-dtype reduction): comparing a
number with a string raises `TypeError`. -/
def pyMax : Value → Value → Except String Value
  | .num a, .num b => .ok (.num (max a b))
  | .str a, .str b => .ok (.str (max a b))
  | _, _ => .error "TypeError: comparison not supported between str and number"

/-- `Series.max()`: `none` models NaN on an empty column. -/
def colMax : List Value → Except String (Option Value)
  | [] => .ok none
  | v :: vs =>
    match colMax vs with
    | .error e => .error e
    | .ok none => .ok (some v)
    | .ok (some w) =>
      match pyMax v w with
      | .error e => .error e
      | .ok r => .ok (some r)

/-- Divide one cell by 100 (`df["RevolvingUtil"] / 100`). -/
def divVal100 : Value → Except String Value
  | .num q => .ok (.num (q / 100))
  | .str _ => .error "TypeError: unsupported operand type for division: str"

/-- The percentage-to-fraction safety check of `auto_alias_columns_strict`:
if a `RevolvingUtil` column exists and its max exceeds 1, divide the whole
column by 100.  Duplicate `RevolvingUtil` labels make `if Series:` raise
(`truth value of a Series is ambiguous`); a string max makes `> 1` raise. -/
def normalizeUtil (df : DataFrame) : Except String DataFrame :=
  let k := df.cols.count "RevolvingUtil"
  if k = 0 then .ok df
  else if 2 ≤ k then .error "ValueError: The truth value of a Series is ambiguous"
  else
    match colMax (getCol df "RevolvingUtil") with
    | .error e => .error e
    | .ok none => .ok df
    | .ok (some (.str _)) =>
      .error "TypeError: operator > not supported between instances of str and int"
    | .ok (some (.num q)) =>
      if q > 1 then
        match (getCol df "RevolvingUtil").mapM divVal100 with
        | .error e => .error e
        | .ok vs => .ok (setCol df "RevolvingUtil" vs)
      else .ok df

/-- `auto_alias_columns_strict`: synonym-based renaming followed by the
utilization percentage check. -/
def auto_alias_columns_strict (df : DataFrame) : Except String DataFrame :=
  normalizeUtil (applyAlias df)

/-! ### SHA-256 (hashlib.sha256), over byte lists as `Nat` mod 2^8 / 2^32 -/

def w32 : Nat := 4294967296

def rotr (x n : Nat) : Nat := ((x >>> n) ||| (x <<< (32 - n))) % w32

def bigSigma0 (x : Nat) : Nat := (rotr x 2) ^^^ (rotr x 13) ^^^ (rotr x 22)

def bigSigma1 (x : Nat) : Nat := (rotr x 6) ^^^ (rotr x 11) ^^^ (rotr x 25)

def smallSigma0 (x : Nat) : Nat := (rotr x 7) ^^^ (rotr x 18) ^^^ (x >>> 3)

def smallSigma1 (x : Nat) : Nat := (rotr x 17) ^^^ (rotr x 19) ^^^ (x >>> 10)

def shaK : List Nat :=
  [1116352408, 1899447441, 3049323471, 3921009573, 961987163,
   1508970993, 2453635748, 2870763221, 3624381080, 310598401,
   607225278, 1426881987, 1925078388, 2162078206, 2614888103,
   3248222580, 3835390401, 4022224774, 264347078, 604807628,
   770255983, 1249150122, 1555081692, 1996064986, 2554220882,
   2821834349, 2952996808, 3210313671, 3336571891, 3584528711,
   113926993, 338241895, 666307205, 773529912, 1294757372,
   1396182291, 1695183700, 1986661051, 2177026350, 2456956037,
   2730485921, 2820302411, 3259730800, 3345764771, 3516065817,
   3600352804, 4094571909, 275423344, 430227734, 506948616,
   659060556, 883997877, 958139571, 1322822218, 1537002063,
   1747873779, 1955562222, 2024104815, 2227730452, 2361852424,
   2428436474, 2756734187, 3204031479, 3329325298]

def shaH0 : List Nat :=
  [1779033703, 3144134277, 1013904242, 2773480762,
   1359893119, 2600822924, 528734635, 1541459225]

/-- SHA-256 padding: 0x80, zeros to 56 mod 64, then the bit length big-endian. -/
def padMessage (bs : List Nat) : List Nat :=
  let ml := bs.length * 8
  let z := (120 - (bs.length + 1) % 64) % 64
  bs ++ [128] ++ List.replicate z 0 ++ (List.range 8).map (fun i => (ml >>> ((7 - i) * 8)) % 256)

/-- Split into 64-byte chunks (fuel-driven; fuel = list length suffices). -/
def chunks64Aux : Nat → List Nat → List (List Nat)
  | 0, _ => []
  | _, [] => []
  | fuel + 1, l => l.take 64 :: chunks64Aux fuel (l.drop 64)

def chunks64 (l : List Nat) : List (List Nat) := chunks64Aux l.length l

/-- 16 big-endian 32-bit words of one 64-byte chunk. -/
def chunkWords (c : List Nat) : Array Nat :=
  ((List.range 16).map (fun i =>
    c.getD (4 * i) 0 * 16777216 + c.getD (4 * i + 1) 0 * 65536 +
    c.getD (4 * i + 2) 0 * 256 + c.getD (4 * i + 3) 0)).toArray

/-- Extend 16 words to the 64-word message schedule. -/
def extendWords (ws : Array Nat) : Array Nat :=
  (List.range 48).foldl (fun a t =>
    let i := t + 16
    a.push ((smallSigma1 (a.getD (i - 2) 0) + a.getD (i - 7) 0 +
             smallSigma0 (a.getD (i - 15) 0) + a.getD (i - 16) 0) % w32)) ws

/-- One round of the SHA-256 compression function. -/
def shaRound (s : List Nat) (kw : Nat × Nat) : List Nat :=
  let a := s.getD 0 0
  let b := s.getD 1 0
  let c := s.getD 2 0
  let d := s.getD 3 0
  let e := s.getD 4 0
  let f := s.getD 5 0
  let g := s.getD 6 0
  let h := s.getD 7 0
  let ch := (e &&& f) ^^^ ((w32 - 1 - e) &&& g)
  let maj := (a &&& b) ^^^ (a &&& c) ^^^ (b &&& c)
  let t1 := (h + bigSigma1 e + ch + kw.1 + kw.2) % w32
  let t2 := (bigSigma0 a + maj) % w32
  [(t1 + t2) % w32, a, b, c, (d + t1) % w32, e, f, g]

/-- Process one chunk: 64 rounds then add into the running state. -/
def shaChunk (st : List Nat) (c : List Nat) : List Nat :=
  let ws := extendWords (chunkWords c)
  let final := (shaK.zip ws.toList).foldl (fun s kw => shaRound s ⟨kw.2, kw.1⟩) st
  (st.zip final).map (fun p => (p.1 + p.2) % w32)

def hexDigitChar (n : Nat) : Char :=
  if n < 10 then Char.ofNat (48 + n) else Char.ofNat (87 + n)

def natToHexAux : Nat → Nat → List Char
  | _, 0 => []
  | n, d + 1 => natToHexAux (n / 16) d ++ [hexDigitChar (n % 16)]

def natToHex (n digits : Nat) : String := String.mk (natToHexAux n digits)

/-- `hashlib.sha256(bytes).hexdigest()` over a byte list. -/
def sha256hexBytes (bs : List Nat) : String :=
  let st := (chunks64 (padMessage bs)).foldl shaChunk shaH0
  String.join (st.map (fun x => natToHex x 8))

/-- `hashlib.sha256(s.encode()).hexdigest()`.  The serialized JSON the
pipeline hashes is pure ASCII (`json.dumps` escapes everything else), so
UTF-8 encoding is the identity on code points. -/
def sha256hex (s : String) : String := sha256hexBytes (s.data.map Char.toNat)

/-! ### json.dumps(..., sort_keys=True, default=str) of one row dict -/

def padZeros (s : String) (k : Nat) : String :=
  String.mk (List.replicate (k - s.length) '0') ++ s

/-- JSON string escaping as `json.dumps` performs it (ensure_ascii). -/
def escapeChar (c : Char) : String :=
  if c = '"' then "\\\""
  else if c = '\\' then "\\\\"
  else if c = '\n' then "\\n"
  else if c = '\t' then "\\t"
  else if c = '\r' then "\\r"
  else if c.toNat = 8 then "\\b"
  else if c.toNat = 12 then "\\f"
  else if c.toNat < 32 ∨ 126 < c.toNat then "\\u" ++ natToHex c.toNat 4
  else String.singleton c

/-- Concatenated escapes of a character list. -/
def escList : List Char → List Char
  | [] => []
  | c :: cs => (escapeChar c).data ++ escList cs

def escapeJson (s : String) : String := String.mk (escList s.data)

def jsonStr (s : String) : String := "\"" ++ escapeJson s ++ "\""

/-- JSON rendering of a number: integers plain, other rationals as their
finite decimal expansion (float cells are dyadic, so the expansion is
finite; the embedding does not track Python's int/float tag on whole
numbers, so a whole float renders without a trailing `.0`). -/
def jsonNum (q : Rat) : String :=
  if q.den = 1 then toString q.num
  else
    match List.find? (fun k => (q * (10 : Rat) ^ k).den = 1) (List.range 1200) with
    | some k =>
      let m : Int := (q * (10 : Rat) ^ k).num
      let sign := if m < 0 then "-" else ""
      let n := m.natAbs
      sign ++ toString (n / 10 ^ k) ++ "." ++ padZeros (toString (n % 10 ^ k)) k
    | none => toString q.num ++ "/" ++ toString q.den

def serVal : Value → String
  | .num q => jsonNum q
  | .str s => jsonStr s

def serPair (p : String × Value) : String := jsonStr p.1 ++ ": " ++ serVal p.2

/-- `", ".join` of serialized key/value pairs. -/
def serPairs : List (String × Value) → String
  | [] => ""
  | p :: ps => serPair p ++ (if ps.isEmpty then "" else ", " ++ serPairs ps)

/-- The value a key holds in the Python dict built from an association
list: the last binding wins (`dict` update semantics). -/
def lookupLast (k : String) : List (String × Value) → Option Value
  | [] => none
  | p :: ps =>
    match lookupLast k ps with
    | some v => some v
    | none => if p.1 = k then some p.2 else none

def sortStrings (l : List String) : List String := List.insertionSort (· ≤ ·) l

/-- `json.dumps(r.to_dict(), sort_keys=True, default=str)`: keys sorted,
each key bound to its last value, rendered with `", "`/`": "` separators. -/
def serializeRecord (r : List (String × Value)) : String :=
  let ks := sortStrings ((r.map Prod.fst).dedup)
  "\x7b" ++ serPairs (ks.map (fun k => (k, (lookupLast k r).getD (.str "")))) ++ "\x7d"

/-- The per-row lambda of `add_metadata`: first 8 hex chars of the
SHA-256 of the serialized row dict. -/
def rowHash (r : List (String × Value)) : String := (sha256hex (serializeRecord r)).take 8

/-- `add_metadata`: broadcast the reporting date and product code, then
attach the lineage hash of each (already enriched) row. -/
def add_metadata (df : DataFrame) (reporting_date product_code : String) : DataFrame :=
  let df1 := setColConst df "ReportingDate" (.str reporting_date)
  let df2 := setColConst df1 "ProductCode" (.str product_code)
  setCol df2 "LineageHash" (df2.rows.map (fun row => .str (rowHash (df2.cols.zip row))))

/-- `process_pipeline`: validate, compute balances, tag metadata. -/
def process_pipeline (df : DataFrame) (reporting_date product_code : String) :
    Except String DataFrame :=
  match validate_data df with
  | .error e => .error e
  | .ok _ =>
    match calculate_balances df with
    | .error e => .error e
    | .ok df_bal => .ok (add_metadata df_bal reporting_date product_code)

/-! ### generate_narrative -/

def toNumE : Value → Except String Rat
  | .num q => .ok q
  | .str _ => .error "TypeError: unsupported operand type mixing str and number"

def ratSum (l : List Rat) : Rat := l.foldl (· + ·) 0

/-- `df["OutstandingBalance"].sum()`. -/
def totalBalanceE (df : DataFrame) : Except String Rat :=
  match (getCol df "OutstandingBalance").mapM toNumE with
  | .error e => .error e
  | .ok xs => .ok (ratSum xs)

/-- `df["RevolvingUtil"].mean()`. -/
def avgUtilE (df : DataFrame) : Except String Rat :=
  match (getCol df "RevolvingUtil").mapM toNumE with
  | .error e => .error e
  | .ok xs =>
    if xs.length = 0 then .error "mean of an empty column"
    else .ok (ratSum xs / (xs.length : Rat))

/-- `(df["DPD30_59"] > 0).mean()`. -/
def delinqRateE (df : DataFrame) : Except String Rat :=
  match (getCol df "DPD30_59").mapM toNumE with
  | .error e => .error e
  | .ok xs =>
    if xs.length = 0 then .error "mean of an empty column"
    else .ok (((xs.filter (fun x => 0 < x)).length : Rat) / (xs.length : Rat))

/-- Digit grouping of a digit string, every 3 from the right. -/
def groupAux : Nat → List Char → List Char
  | _, [] => []
  | n, c :: cs => if n = 0 then ',' :: c :: groupAux 2 cs else c :: groupAux (n - 1) cs

def groupDigits (s : String) : String := String.mk ((groupAux 3 s.data.reverse).reverse)

/-- Python fixed-point formatting of an exact rational: `decs` decimal
places, ties to even, optional thousands grouping of the integer part. -/
def formatFixed (x : Rat) (decs : Nat) (grouped : Bool) : String :=
  let scaled := roundHalfEven (x * (10 : Rat) ^ decs)
  let sign := if scaled < 0 then "-" else ""
  let n := scaled.natAbs
  let ipStr := if grouped then groupDigits (toString (n / 10 ^ decs)) else toString (n / 10 ^ decs)
  if decs = 0 then sign ++ ipStr
  else sign ++ ipStr ++ "." ++ padZeros (toString (n % 10 ^ decs)) decs

/-- `f"{x:,.2f}"`. -/
def formatMoney (x : Rat) : String := formatFixed x 2 true

/-- `f"{x:.1%}"`. -/
def formatPct1 (x : Rat) : String := formatFixed (x * 100) 1 false ++ "%"

/-- `f"{x:.2f}"`. -/
def formatPct2 (x : Rat) : String := formatFixed x 2 false

/-- Lines 58-59 of the source: the absolute variance and the
percentage with its division-by-zero guard (`if gl_control`). -/
def variancePct (gl_control total_balance : Rat) : Rat :=
  if gl_control ≠ 0 then |gl_control - total_balance| / gl_control * 100 else 0

def tolSentence : String := "✓ Variance within acceptable tolerance."

def warnSentence : String :=
  "⚠️ WARNING: Variance exceeds 5% threshold. Management review required."

/-- `generate_narrative`: aggregate metrics, the reconciliation variance
with its zero-control guard, and the fixed-template prose with the
threshold sentence; returns exactly the narrative, total and variance
percentage. -/
def generate_narrative (df : DataFrame) (reporting_date product_code : String)
    (gl_control : Rat) : Except String (String × Rat × Rat) :=
  match totalBalanceE df with
  | .error e => .error e
  | .ok total_balance =>
    match avgUtilE df with
    | .error e => .error e
    | .ok avg_util =>
      match delinqRateE df with
      | .error e => .error e
      | .ok delinq_rate =>
        let variance := |gl_control - total_balance|
        let variance_pct := variancePct gl_control total_balance
        let narrative :=
          "Y-14M CREDIT CARD PORTFOLIO SUMMARY\nReporting Date: " ++ reporting_date ++
          "\nProduct Code: " ++ product_code ++
          "\n\nPORTFOLIO METRICS:\n- Total Outstanding Balances: $" ++
          formatMoney total_balance ++
          "\n- Average Revolving Utilization: " ++ formatPct1 avg_util ++
          "\n- Delinquency Incidence (30-59 DPD): " ++ formatPct1 delinq_rate ++
          "\n- Number of Accounts: " ++ groupDigits (toString df.rows.length) ++
          "\n\nCONTROL RECONCILIATION:\n- General Ledger Control Total: $" ++
          formatMoney gl_control ++
          "\n- Reported Balance: $" ++ formatMoney total_balance ++
          "\n- Variance: $" ++ formatMoney variance ++ " (" ++ formatPct2 variance_pct ++ "%)\n"
        let narrative :=
          if variance_pct > 5 then narrative ++ "\n" ++ warnSentence
          else narrative ++ "\n" ++ tolSentence
        .ok (narrative, total_balance, variance_pct)

/-! ### Substring search (for claims about narrative/error text) -/

/-- Does the text begin with the pattern? -/
def headMatch : List Char → List Char → Bool
  | [], _ => true
  | _ :: _, [] => false
  | p :: ps, c :: cs => p = c && headMatch ps cs

/-- Does the pattern occur contiguously in the text? -/
def subList : List Char → List Char → Bool
  | pat, [] => pat.isEmpty
  | pat, c :: cs => headMatch pat (c :: cs) || subList pat cs

def containsStr (hay pat : String) : Bool := subList pat.data hay.data

/-! ### Concrete datasets used by the claims -/

/-- The hardcoded 5-row sample of the app (lines 288-292). -/
def sampleDf : DataFrame :=
  ⟨["MonthlyIncome", "RevolvingUtil", "DPD30_59"],
   [[.num 5000, .num 0.40, .num 0],
    [.num 6000, .num 0.50, .num 10],
    [.num 7000, .num 0.30, .num 0],
    [.num 5500, .num 0.45, .num 0],
    [.num 6200, .num 0.55, .num 5]]⟩

/-! ### Helper notions used to state the claims -/

def Value.isNum : Value → Bool
  | .num _ => true
  | .str _ => false

/-- Every cell of the column is numeric. -/
def allNumL (l : List Value) : Bool := l.all Value.isNum

/-- The rational carried by a numeric cell (0 on a string cell). -/
def toQ : Value → Rat
  | .num q => q
  | .str _ => 0

/-- The total of the `OutstandingBalance` column of a numeric dataset. -/
def totalOf (df : DataFrame) : Rat := ratSum ((getCol df "OutstandingBalance").map toQ)

/-- A character `json.dumps` copies verbatim (printable ASCII, not a
quote or backslash).  ISO dates and product codes are plain. -/
def plainChar (c : Char) : Bool :=
  31 < c.toNat && c.toNat < 127 && c ≠ '"' && c ≠ '\\'

def plainStr (s : String) : Bool := s.data.all plainChar

/-- Column assignment viewed on a single row dict: overwrite the value
under an existing key, else append the new binding (the row-level image
of `setCol`). -/
def setPair (r : List (String × Value)) (k : String) (v : Value) : List (String × Value) :=
  if k ∈ r.map Prod.fst then r.map (fun p => if p.1 = k then (p.1, v) else p)
  else r ++ [(k, v)]

/-- The record `add_metadata` hashes for one row: the row enriched with
the broadcast reporting date and product code. -/
def tagRecord (r : List (String × Value)) (reporting_date product_code : String) :
    List (String × Value) :=
  setPair (setPair r "ReportingDate" (.str reporting_date)) "ProductCode" (.str product_code)

/-- The rows of a DataFrame as association lists (label, cell). -/
def recordsOf (df : DataFrame) : List (List (String × Value)) :=
  df.rows.map (fun r => df.cols.zip r)

/-! ### Concrete frames used by witnesses and counterexamples -/

/-- Two raw headers normalizing to `monthlyincome` plus well-formed
util/dpd headers (for the alias-collision claim). -/
def dupIncomeDf : DataFrame :=
  ⟨["Monthly Income", "Monthly_Income", "Revolving Util", "DPD 30-59"],
   [[.num 1000, .num 2000, .num 0.5, .num 0]]⟩

/-- A validated frame whose `MonthlyIncome` holds an unparseable string. -/
def malformedDf : DataFrame :=
  ⟨["MonthlyIncome", "RevolvingUtil", "DPD30_59"],
   [[.str "abc", .num 0.4, .num 0]]⟩

/-- A processed one-row frame with total balance 1 (variance-guard claim). -/
def c4Df : DataFrame :=
  ⟨["OutstandingBalance", "RevolvingUtil", "DPD30_59"],
   [[.num 1, .num 0.5, .num 0]]⟩

/-- A frame carrying an explicit `CurrentBalance` column. -/
def cbDf : DataFrame :=
  ⟨["MonthlyIncome", "RevolvingUtil", "DPD30_59", "CurrentBalance"],
   [[.num 5000, .num 0.4, .num 0, .num 321.456], [.num 6000, .num 0.5, .num 3, .num 100]]⟩

/-- A frame with percentage-form utilization values. -/
def pctUtilDf : DataFrame :=
  ⟨["MonthlyIncome", "RevolvingUtil", "DPD30_59"],
   [[.num 5000, .num 40, .num 0], [.num 6000, .num 55, .num 2]]⟩

/-- A frame missing two required columns. -/
def missingTwoDf : DataFrame := ⟨["RevolvingUtil"], [[.num 0.4]]⟩

/-- A frame whose headers are synonym spellings of the three mandatory
fields, in scrambled casing/punctuation. -/
def c7Df : DataFrame :=
  ⟨["income", "UTILIZATION", "DPD-30-59"], [[.num 1000, .num 0.5, .num 0]]⟩

instance instDecEqExcept {ε α : Type} [DecidableEq ε] [DecidableEq α] :
    DecidableEq (Except ε α) := fun x y =>
  match x, y with
  | .ok a, .ok b =>
    if h : a = b then .isTrue (by rw [h]) else .isFalse (by simp [h])
  | .error e, .error f =>
    if h : e = f then .isTrue (by rw [h]) else .isFalse (by simp [h])
  | .ok _, .error _ => .isFalse (by simp)
  | .error _, .ok _ => .isFalse (by simp)

end Y14M

namespace Y14M

set_option maxRecDepth 40000

/-!
## Claim C1: end-to-end sample scenario
-/

/-- C1. Running `process_pipeline` on the fixed five-row sample (no
explicit balance column) and `generate_narrative` with the control total
equal to the computed total balance yields total balance 12985, a
delinquency incidence of 2/5 = 40%, variance percentage 0, a narrative
carrying the 40.0% incidence line and the $0.00 (0.00%) variance line,
containing the in-tolerance sentence and not the warning sentence. -/
theorem c1_end_to_end_sample :
    (process_pipeline sampleDf "2025-03-31" "CCARD" >>= fun d => totalBalanceE d)
      = .ok 12985 ∧
    (process_pipeline sampleDf "2025-03-31" "CCARD" >>= fun d => delinqRateE d)
      = .ok (2 / 5) ∧
    (process_pipeline sampleDf "2025-03-31" "CCARD" >>= fun d =>
        generate_narrative d "2025-03-31" "CCARD" 12985).map
        (fun t => (t.2.1, t.2.2, containsStr t.1 tolSentence, containsStr t.1 warnSentence,
          containsStr t.1 "- Delinquency Incidence (30-59 DPD): 40.0%",
          containsStr t.1 "- Variance: $0.00 (0.00%)"))
      = .ok (12985, 0, true, false, true, true) := by
  refine ⟨?_, ?_, ?_⟩ <;> with_unfolding_all rfl

/-!
## Claim C9: malformed numeric input
-/

/-- C9 (evaluation at the failing input).  On a validated frame whose
`MonthlyIncome` holds the unparseable string `"abc"`, the pipeline fails
with a bare `TypeError` whose message names neither the offending field
nor the offending row — there is no `MalformedValue` error in the code. -/
theorem c9_no_malformed_value_error :
    process_pipeline malformedDf "2025-03-31" "CCARD"
      = .error "TypeError: cannot multiply sequence by non-int of type float" ∧
    containsStr "TypeError: cannot multiply sequence by non-int of type float"
      "MonthlyIncome" = false ∧
    containsStr "TypeError: cannot multiply sequence by non-int of type float"
      "row" = false ∧
    containsStr "TypeError: cannot multiply sequence by non-int of type float"
      "0" = false := by
  refine ⟨?_, ?_, ?_, ?_⟩ <;> with_unfolding_all rfl

/-!
## Substring lemmas (for claims about error and narrative text)
-/

theorem headMatch_self_append (p t : List Char) : headMatch p (p ++ t) = true := by
  induction p with
  | nil => rfl
  | cons c cs ih => simp [headMatch, ih]

theorem headMatch_append_right {p s : List Char} (t : List Char)
    (h : headMatch p s = true) : headMatch p (s ++ t) = true := by
  induction p generalizing s with
  | nil => rfl
  | cons c cs ih =>
    cases s with
    | nil => simp [headMatch] at h
    | cons d ds =>
      simp only [headMatch, Bool.and_eq_true] at h
      simp [headMatch, h.1, ih h.2]

theorem subList_nil_pat (t : List Char) : subList [] t = true := by
  cases t with
  | nil => rfl
  | cons c cs => simp [subList, headMatch]

theorem subList_of_headMatch {p t : List Char} (h : headMatch p t = true) :
    subList p t = true := by
  cases t with
  | nil =>
    cases p with
    | nil => rfl
    | cons c cs => simp [headMatch] at h
  | cons c cs => simp [subList, h]

theorem subList_cons {p t : List Char} (c : Char) (h : subList p t = true) :
    subList p (c :: t) = true := by
  simp [subList, h]

theorem subList_append_left {p t : List Char} (s : List Char)
    (h : subList p t = true) : subList p (s ++ t) = true := by
  induction s with
  | nil => simpa using h
  | cons c cs ih => simpa using subList_cons c ih

theorem subList_append_right {p : List Char} {s : List Char} (t : List Char)
    (h : subList p s = true) : subList p (s ++ t) = true := by
  induction s with
  | nil =>
    simp only [subList, List.isEmpty_iff] at h
    subst h
    exact subList_nil_pat t
  | cons c cs ih =>
    simp only [subList, Bool.or_eq_true] at h
    rcases h with h | h
    · exact subList_of_headMatch (headMatch_append_right t h)
    · simpa using subList_cons c (ih h)

theorem subList_self_append (p t : List Char) : subList p (p ++ t) = true :=
  subList_of_headMatch (headMatch_self_append p t)

theorem joinSep_subList {c : String} {l : List String} (h : c ∈ l) :
    subList c.data (joinSep ", " l).data = true := by
  induction l with
  | nil => simp at h
  | cons a rest ih =>
    rcases List.mem_cons.mp h with rfl | h2
    · simp only [joinSep, String.data_append]
      exact subList_self_append c.data _
    · cases rest with
      | nil => simp at h2
      | cons b bs =>
        simp only [joinSep, List.isEmpty_cons, if_false, String.data_append,
          Bool.false_eq_true]
        rw [← List.append_assoc]
        exact subList_append_left _ (ih h2)

/-!
## Claim C3: validator completeness
-/

/-- C3.  `validate_data` succeeds exactly when the three mandatory
canonical fields are present; on failure the single error message names
every missing mandatory field (not just the first); the optional balance
field is not among the required columns. -/
theorem c3_validator_names_all_missing (df : DataFrame) :
    (validate_data df = .ok () ↔ ∀ c ∈ REQUIRED_COLUMNS, c ∈ df.cols) ∧
    (∀ msg, validate_data df = .error msg →
      ∀ c ∈ REQUIRED_COLUMNS, c ∉ df.cols → containsStr msg c = true) ∧
    "CurrentBalance" ∉ REQUIRED_COLUMNS := by
  refine ⟨?_, ?_, by decide⟩
  · unfold validate_data
    by_cases hall : ∀ c ∈ REQUIRED_COLUMNS, c ∈ df.cols
    · have : REQUIRED_COLUMNS.filter (fun c => ¬ (c ∈ df.cols)) = [] := by
        rw [List.filter_eq_nil_iff]
        intro a ha
        simp [hall a ha]
      simp [this, hall]
    · have : ¬ (REQUIRED_COLUMNS.filter (fun c => ¬ (c ∈ df.cols))).isEmpty = true := by
        rw [List.isEmpty_eq_true, List.filter_eq_nil_iff]
        push_neg at hall
        rcases hall with ⟨c, hc, hnc⟩
        intro hcon
        exact hcon c hc (by simpa using hnc)
      simp only [this]
      simp [hall, this]
  · intro msg hmsg c hc hnc
    unfold validate_data at hmsg
    dsimp only at hmsg
    split at hmsg
    · exact absurd hmsg (by simp)
    · rw [Except.error.injEq] at hmsg
      subst hmsg
      have hmem : c ∈ REQUIRED_COLUMNS.filter (fun c => ¬ (c ∈ df.cols)) := by
        rw [List.mem_filter]
        exact ⟨hc, by simpa using hnc⟩
      unfold containsStr
      rw [String.data_append]
      exact subList_append_left _ (joinSep_subList hmem)

/-- C3 witness: a frame missing both `MonthlyIncome` and `DPD30_59` is
rejected with one message naming both. -/
theorem c3_witness :
    containsStr "Missing required columns: MonthlyIncome, DPD30_59" "MonthlyIncome" = true ∧
    containsStr "Missing required columns: MonthlyIncome, DPD30_59" "DPD30_59" = true :=
  ⟨(c3_validator_names_all_missing missingTwoDf).2.1 _ rfl "MonthlyIncome" (by decide) (by decide),
   (c3_validator_names_all_missing missingTwoDf).2.1 _ rfl "DPD30_59" (by decide) (by decide)⟩

/-!
## Column access/assignment lemmas
-/

theorem putCell_getD (c : String) (v d : Value) :
    ∀ (cols : List String) (r : List Value) (i : Nat),
      r.length = cols.length → i < cols.length → cols.getD i "" = c →
      (putCell cols c r v).getD i d = v := by
  intro cols
  induction cols with
  | nil =>
    intro r i _ hi _
    simp at hi
  | cons k ks ih =>
    intro r i hlen hi hc
    cases r with
    | nil => simp at hlen
    | cons x xs =>
      cases i with
      | zero =>
        simp only [List.getD_cons_zero] at hc
        simp [putCell, hc]
      | succ n =>
        simp only [List.getD_cons_succ] at hc
        simp only [List.length_cons, Nat.succ_lt_succ_iff] at hi
        simp only [List.length_cons, Nat.succ.injEq] at hlen
        simp only [putCell, List.getD_cons_succ]
        exact ih xs n hlen hi hc

theorem findIdx_mem_eq (c : String) {cols : List String} (h : c ∈ cols) :
    ∃ i, cols.findIdx? (· == c) = some i ∧ i < cols.length ∧ cols.getD i "" = c := by
  induction cols with
  | nil => simp at h
  | cons k ks ih =>
    by_cases hk : (k == c) = true
    · exact ⟨0, by simp [List.findIdx?_cons, hk], by simp, by simpa using hk⟩
    · have hc : c ∈ ks := by
        rcases List.mem_cons.mp h with rfl | h2
        · simp at hk
        · exact h2
      rcases ih hc with ⟨i, hfind, hlt, hget⟩
      refine ⟨i + 1, ?_, by simpa using Nat.succ_lt_succ hlt, by simpa using hget⟩
      rw [List.findIdx?_cons, if_neg hk, List.findIdx?_start_succ, hfind]
      rfl

theorem getD_append_len (r : List Value) (v d : Value) :
    (r ++ [v]).getD r.length d = v := by
  induction r with
  | nil => rfl
  | cons x xs ih => simpa using ih

theorem findIdx_append_self (c : String) {cols : List String} (h : c ∉ cols) :
    (cols ++ [c]).findIdx? (· == c) = some cols.length := by
  induction cols with
  | nil => simp [List.findIdx?_cons]
  | cons k ks ih =>
    have hk : ¬ ((k == c) = true) := by
      simp only [beq_iff_eq]
      rintro rfl
      exact h (List.mem_cons_self _ _)
    have hc : c ∉ ks := fun hm => h (List.mem_cons_of_mem _ hm)
    rw [List.cons_append, List.findIdx?_cons, if_neg hk, List.findIdx?_start_succ, ih hc]
    simp

theorem getCol_setCol (df : DataFrame) (c : String) (vs : List Value)
    (hWF : df.WF) (hlen : vs.length = df.rows.length) :
    getCol (setCol df c vs) c = vs := by
  unfold setCol
  by_cases hc : c ∈ df.cols
  · rw [if_pos hc]
    rcases findIdx_mem_eq c hc with ⟨i, hfind, hlt, hget⟩
    unfold getCol
    simp only [hfind, List.map_map]
    have hpt : ∀ rv ∈ df.rows.zip vs,
        ((fun r => r.getD i (Value.str "")) ∘ fun rv => putCell df.cols c rv.1 rv.2) rv
          = Prod.snd rv := by
      intro rv hrv
      obtain ⟨r1, v1⟩ := rv
      have h1 : r1 ∈ df.rows := (List.of_mem_zip hrv).1
      exact putCell_getD c v1 _ df.cols r1 i (hWF r1 h1) hlt hget
    rw [List.map_congr_left hpt, List.map_snd_zip _ _ (le_of_eq hlen)]
  · rw [if_neg hc]
    unfold getCol
    simp only [findIdx_append_self c hc, List.map_map]
    have hpt : ∀ rv ∈ df.rows.zip vs,
        ((fun r => r.getD df.cols.length (Value.str "")) ∘ fun rv => rv.1 ++ [rv.2]) rv
          = Prod.snd rv := by
      intro rv hrv
      obtain ⟨r1, v1⟩ := rv
      have h1 : r1 ∈ df.rows := (List.of_mem_zip hrv).1
      have hrl : df.cols.length = r1.length := (hWF r1 h1).symm
      simp only [Function.comp_apply, hrl]
      exact getD_append_len r1 v1 _
    rw [List.map_congr_left hpt, List.map_snd_zip _ _ (le_of_eq hlen)]

theorem getCol_length_of_mem {df : DataFrame} {c : String} (h : c ∈ df.cols) :
    (getCol df c).length = df.rows.length := by
  rcases findIdx_mem_eq c h with ⟨i, hfind, _, _⟩
  unfold getCol
  rw [hfind]
  simp

theorem validate_ok_required {df : DataFrame} (h : validate_data df = .ok ()) :
    ∀ c ∈ REQUIRED_COLUMNS, c ∈ df.cols := by
  intro c hc
  by_contra hnc
  unfold validate_data at h
  dsimp only at h
  split at h
  · rename_i hemp
    rw [List.isEmpty_eq_true, List.filter_eq_nil_iff] at hemp
    exact (by simpa using hemp c hc : c ∈ df.cols) |> hnc
  · exact absurd h (by simp)

/-!
## mapM evaluation lemmas for numeric columns
-/

theorem mapM_round2Val_ok {l : List Value} (h : allNumL l = true) :
    l.mapM round2Val = .ok (l.map (fun v => Value.num (round2 (toQ v)))) := by
  induction l with
  | nil => rfl
  | cons v vs ih =>
    simp only [allNumL, List.all_cons, Bool.and_eq_true] at h
    cases v with
    | num q =>
      rw [List.mapM_cons, ih h.2]
      rfl
    | str s => simp [Value.isNum] at h

theorem mapM_divVal100_ok {l : List Value} (h : allNumL l = true) :
    l.mapM divVal100 = .ok (l.map (fun v => Value.num (toQ v / 100))) := by
  induction l with
  | nil => rfl
  | cons v vs ih =>
    simp only [allNumL, List.all_cons, Bool.and_eq_true] at h
    cases v with
    | num q =>
      rw [List.mapM_cons, ih h.2]
      rfl
    | str s => simp [Value.isNum] at h

theorem mapM_mulVal_ok {a b : List Value} (ha : allNumL a = true) (hb : allNumL b = true) :
    (a.zip b).mapM (fun p => mulVal p.1 p.2)
      = .ok ((a.zip b).map (fun p => Value.num (toQ p.1 * toQ p.2))) := by
  induction a generalizing b with
  | nil => rfl
  | cons x xs ih =>
    cases b with
    | nil => rfl
    | cons y ys =>
      simp only [allNumL, List.all_cons, Bool.and_eq_true] at ha hb
      cases x with
      | str s => simp [Value.isNum] at ha
      | num qx =>
        cases y with
        | str s => simp [Value.isNum] at hb
        | num qy =>
          rw [List.zip_cons_cons, List.mapM_cons, ih ha.2 hb.2]
          rfl

theorem allNumL_map_num {α : Type} (l : List α) (f : α → Rat) :
    allNumL (l.map (fun v => Value.num (f v))) = true := by
  simp [allNumL, List.all_eq_true, Value.isNum]

/-!
## Claim C2: dataset-level balance branch
-/

/-- C2.  `calculate_balances` decides its branch once per dataset: when
`CurrentBalance` is present every record's outstanding balance is that
record's explicit balance rounded to 2 decimals, and when it is absent
every record's outstanding balance is income × utilization rounded to 2
decimals — no per-row fallback. -/
theorem c2_dataset_level_branch (df : DataFrame) (hWF : df.WF)
    (hval : validate_data df = .ok ()) :
    ("CurrentBalance" ∈ df.cols →
      allNumL (getCol df "CurrentBalance") = true →
      (calculate_balances df).map (fun d => getCol d "OutstandingBalance")
        = .ok ((getCol df "CurrentBalance").map (fun v => Value.num (round2 (toQ v))))) ∧
    ("CurrentBalance" ∉ df.cols →
      allNumL (getCol df "MonthlyIncome") = true →
      allNumL (getCol df "RevolvingUtil") = true →
      (calculate_balances df).map (fun d => getCol d "OutstandingBalance")
        = .ok (((getCol df "MonthlyIncome").zip (getCol df "RevolvingUtil")).map
            (fun p => Value.num (round2 (toQ p.1 * toQ p.2))))) := by
  constructor
  · intro hin hnum
    unfold calculate_balances
    rw [if_pos hin, mapM_round2Val_ok hnum]
    have hlen : ((getCol df "CurrentBalance").map
        (fun v => Value.num (round2 (toQ v)))).length = df.rows.length := by
      rw [List.length_map, getCol_length_of_mem hin]
    simp only [Except.map]
    rw [getCol_setCol df _ _ hWF hlen]
  · intro hnin hinc hutil
    have hmi : "MonthlyIncome" ∈ df.cols :=
      validate_ok_required hval "MonthlyIncome" (by decide)
    have hru : "RevolvingUtil" ∈ df.cols :=
      validate_ok_required hval "RevolvingUtil" (by decide)
    unfold calculate_balances
    rw [if_neg hnin, mapM_mulVal_ok hinc hutil]
    dsimp only
    rw [mapM_round2Val_ok (allNumL_map_num _ _)]
    have hlen : ((((getCol df "MonthlyIncome").zip (getCol df "RevolvingUtil")).map
          (fun p => Value.num (toQ p.1 * toQ p.2))).map
          (fun v => Value.num (round2 (toQ v)))).length = df.rows.length := by
      rw [List.length_map, List.length_map, List.length_zip,
        getCol_length_of_mem hmi, getCol_length_of_mem hru, Nat.min_self]
    simp only [Except.map]
    rw [getCol_setCol df _ _ hWF hlen]
    rw [List.map_map]
    rfl

/-- C2 witness: the explicit-balance branch evaluated on a concrete
two-row frame carrying `CurrentBalance`. -/
theorem c2_witness :
    (calculate_balances cbDf).map (fun d => getCol d "OutstandingBalance")
      = .ok [Value.num 321.46, Value.num 100] := by
  with_unfolding_all
    exact (c2_dataset_level_branch cbDf (by decide) (by decide)).1 (by decide) (by decide)

/-!
## Claim C4: variance percentage
-/

theorem mapM_toNumE_ok {l : List Value} (h : allNumL l = true) :
    l.mapM toNumE = .ok (l.map toQ) := by
  induction l with
  | nil => rfl
  | cons v vs ih =>
    simp only [allNumL, List.all_cons, Bool.and_eq_true] at h
    cases v with
    | num q =>
      rw [List.mapM_cons, ih h.2]
      rfl
    | str s => simp [Value.isNum] at h

theorem totalBalanceE_ok {df : DataFrame}
    (h : allNumL (getCol df "OutstandingBalance") = true) :
    totalBalanceE df = .ok (totalOf df) := by
  unfold totalBalanceE totalOf
  rw [mapM_toNumE_ok h]

theorem avgUtilE_ok {df : DataFrame}
    (h : allNumL (getCol df "RevolvingUtil") = true)
    (hne : getCol df "RevolvingUtil" ≠ []) :
    avgUtilE df = .ok (ratSum ((getCol df "RevolvingUtil").map toQ) /
      (((getCol df "RevolvingUtil").map toQ).length : Rat)) := by
  unfold avgUtilE
  rw [mapM_toNumE_ok h]
  have hlen : ((getCol df "RevolvingUtil").map toQ).length ≠ 0 := by
    simpa [List.length_eq_zero] using hne
  simp [hlen, hne]

theorem delinqRateE_ok {df : DataFrame}
    (h : allNumL (getCol df "DPD30_59") = true)
    (hne : getCol df "DPD30_59" ≠ []) :
    delinqRateE df = .ok (((((getCol df "DPD30_59").map toQ).filter
        (fun x => 0 < x)).length : Rat) /
      (((getCol df "DPD30_59").map toQ).length : Rat)) := by
  unfold delinqRateE
  rw [mapM_toNumE_ok h]
  have hlen : ((getCol df "DPD30_59").map toQ).length ≠ 0 := by
    simpa [List.length_eq_zero] using hne
  simp [hlen, hne]

/-- C4 (amended).  For a numeric processed dataset and a non-negative
control total, the variance percentage returned by `generate_narrative`
is `variancePct`: it is non-negative, equals
`|control − total| / control × 100` when the control total is non-zero,
is 0 when the control total is 0, and — provided the control total is
non-zero — equals 0 exactly when the total balance equals the control
total. -/
theorem c4_variance_guard (df : DataFrame) (rd pc : String) (gl : Rat) (hgl : 0 ≤ gl)
    (h1 : allNumL (getCol df "OutstandingBalance") = true)
    (h2 : allNumL (getCol df "RevolvingUtil") = true)
    (h3 : allNumL (getCol df "DPD30_59") = true)
    (hne2 : getCol df "RevolvingUtil" ≠ [])
    (hne3 : getCol df "DPD30_59" ≠ []) :
    (generate_narrative df rd pc gl).map (fun t => t.2.2)
        = .ok (variancePct gl (totalOf df)) ∧
    0 ≤ variancePct gl (totalOf df) ∧
    (gl ≠ 0 → variancePct gl (totalOf df) = |gl - totalOf df| / gl * 100) ∧
    (gl = 0 → variancePct gl (totalOf df) = 0) ∧
    (gl ≠ 0 → (variancePct gl (totalOf df) = 0 ↔ totalOf df = gl)) := by
  refine ⟨?_, ?_, ?_, ?_, ?_⟩
  · unfold generate_narrative
    rw [totalBalanceE_ok h1, avgUtilE_ok h2 hne2, delinqRateE_ok h3 hne3]
    simp [Except.map]
  · unfold variancePct
    split
    · rename_i hne
      have hpos : 0 < gl := lt_of_le_of_ne hgl (Ne.symm hne)
      positivity
    · exact le_refl 0
  · intro hne
    unfold variancePct
    rw [if_pos hne]
  · intro hz
    unfold variancePct
    rw [if_neg (by simp [hz])]
  · intro hne
    unfold variancePct
    rw [if_pos hne]
    rw [mul_eq_zero, div_eq_zero_iff, abs_eq_zero, sub_eq_zero]
    constructor
    · rintro ((h | h) | h)
      · exact h.symm
      · exact absurd h hne
      · norm_num at h
    · intro h
      exact Or.inl (Or.inl h.symm)

/-- C4 witness: the amended statement evaluated on a concrete one-row
frame with control total 2. -/
theorem c4_variance_guard_witness :
    (generate_narrative c4Df "2025-03-31" "CCARD" 2).map (fun t => t.2.2)
        = .ok (variancePct 2 (totalOf c4Df)) ∧
    0 ≤ variancePct 2 (totalOf c4Df) ∧
    ((2 : Rat) ≠ 0 → variancePct 2 (totalOf c4Df) = |2 - totalOf c4Df| / 2 * 100) ∧
    ((2 : Rat) = 0 → variancePct 2 (totalOf c4Df) = 0) ∧
    ((2 : Rat) ≠ 0 → (variancePct 2 (totalOf c4Df) = 0 ↔ totalOf c4Df = 2)) :=
  c4_variance_guard c4Df "2025-03-31" "CCARD" 2 (by norm_num)
    (by with_unfolding_all decide) (by with_unfolding_all decide)
    (by with_unfolding_all decide) (by with_unfolding_all decide)
    (by with_unfolding_all decide)

/-- C4 (counterexample to the claim as stated).  With control total 0 and
total balance 1, the variance percentage is 0 although the total balance
does not equal the control total, so "equals 0 exactly when total balance
equals control total" fails at a zero control total. -/
theorem c4_variance_counterexample :
    (generate_narrative c4Df "2025-03-31" "CCARD" 0).map (fun t => (t.2.1, t.2.2))
      = .ok (1, 0) ∧ (1 : Rat) ≠ 0 := by
  refine ⟨by with_unfolding_all rfl, by norm_num⟩

/-!
## Claim C6: alias collision
-/

/-- C6 (counterexample to the claim as stated).  When two raw columns
(`Monthly Income`, `Monthly_Income`) normalize to the same canonical
target, the resolver output keeps BOTH columns renamed to
`MonthlyIncome`; the earlier duplicate is not dropped, so no single
"last one wins" column exists. -/
theorem c6_collision_counterexample :
    (auto_alias_columns_strict dupIncomeDf).map DataFrame.cols
      = .ok ["MonthlyIncome", "MonthlyIncome", "RevolvingUtil", "DPD30_59"] ∧
    ¬ ((auto_alias_columns_strict dupIncomeDf).map DataFrame.cols
      = .ok ["MonthlyIncome", "RevolvingUtil", "DPD30_59"]) := by
  refine ⟨by with_unfolding_all rfl, ?_⟩
  rw [show (auto_alias_columns_strict dupIncomeDf).map DataFrame.cols
      = .ok ["MonthlyIncome", "MonthlyIncome", "RevolvingUtil", "DPD30_59"]
    from by with_unfolding_all rfl]
  decide

theorem setCol_cols_of_mem {df : DataFrame} {c : String} (h : c ∈ df.cols)
    (vs : List Value) : (setCol df c vs).cols = df.cols := by
  unfold setCol
  rw [if_pos h]

/-!
## colMax lemmas (for the utilization percentage check)
-/

theorem colMax_num {l : List Value} (hnum : allNumL l = true) (hne : l ≠ []) :
    ∃ m : Rat, colMax l = .ok (some (.num m)) ∧ m ∈ l.map toQ ∧ ∀ v ∈ l, toQ v ≤ m := by
  induction l with
  | nil => exact absurd rfl hne
  | cons v vs ih =>
    simp only [allNumL, List.all_cons, Bool.and_eq_true] at hnum
    cases v with
    | str s => simp [Value.isNum] at hnum
    | num q =>
      cases vs with
      | nil => exact ⟨q, rfl, by simp [toQ], by simp [toQ]⟩
      | cons w ws =>
        rcases ih hnum.2 (by simp) with ⟨m, hcm, hmem, hle⟩
        refine ⟨max q m, ?_, ?_, ?_⟩
        · unfold colMax
          rw [hcm]
          rfl
        · rcases max_choice q m with h | h <;> rw [h]
          · simp [toQ]
          · simp only [List.map_cons]
            exact List.mem_cons_of_mem _ hmem
        · intro v hv
          rcases List.mem_cons.mp hv with rfl | hv2
          · simpa [toQ] using le_max_left q m
          · exact le_trans (hle v hv2) (le_max_right q m)

theorem colMax_shape {l : List Value} (hnum : allNumL l = true) :
    colMax l = .ok none ∨ ∃ m : Rat, colMax l = .ok (some (.num m)) := by
  cases l with
  | nil => exact Or.inl rfl
  | cons v vs =>
    rcases colMax_num hnum (by simp) with ⟨m, h, _, _⟩
    exact Or.inr ⟨m, h⟩

theorem normalizeUtil_ok_cols {df d : DataFrame} (h : normalizeUtil df = .ok d) :
    d.cols = df.cols := by
  unfold normalizeUtil at h
  dsimp only at h
  split at h
  · cases h; rfl
  · split at h
    · exact absurd h (by simp)
    · rename_i h0 h2
      have hmem : "RevolvingUtil" ∈ df.cols :=
        List.count_pos_iff.mp (Nat.pos_of_ne_zero h0)
      split at h
      · exact absurd h (by simp)
      · cases h; rfl
      · exact absurd h (by simp)
      · split at h
        · split at h
          · exact absurd h (by simp)
          · cases h
            exact setCol_cols_of_mem hmem _
        · cases h; rfl

/-!
## Claim C8: utilization normalization is dataset-wide and idempotent
-/

/-- C8.  On a numeric single-utilization-column frame: when every
utilization value is ≤ 1 the percentage check changes nothing (so a
second application changes nothing either — idempotence on fractional
data), and when some value exceeds 1 every utilization value in the
dataset is divided by 100, never only some. -/
theorem c8_util_normalization (df : DataFrame) (hWF : df.WF)
    (hone : df.cols.count "RevolvingUtil" = 1)
    (hnum : allNumL (getCol df "RevolvingUtil") = true) :
    ((∀ v ∈ getCol df "RevolvingUtil", toQ v ≤ 1) →
      normalizeUtil df = .ok df ∧
      (normalizeUtil df >>= fun d => normalizeUtil d) = normalizeUtil df) ∧
    ((∃ v ∈ getCol df "RevolvingUtil", 1 < toQ v) →
      (normalizeUtil df).map (fun d => getCol d "RevolvingUtil")
        = .ok ((getCol df "RevolvingUtil").map (fun v => Value.num (toQ v / 100)))) := by
  have hmem : "RevolvingUtil" ∈ df.cols := List.count_pos_iff.mp (by omega)
  constructor
  · intro hle
    have h1 : normalizeUtil df = .ok df := by
      unfold normalizeUtil
      dsimp only
      rw [if_neg (by omega), if_neg (by omega)]
      rcases Classical.em (getCol df "RevolvingUtil" = []) with hnil | hne
      · rw [hnil]
        rfl
      · rcases colMax_num hnum hne with ⟨m, hcm, hmmem, _⟩
        rw [hcm]
        have hm1 : ¬ (1 < m) := by
          rcases List.mem_map.mp hmmem with ⟨v, hv, rfl⟩
          exact not_lt.mpr (hle v hv)
        dsimp only
        rw [if_neg hm1]
    refine ⟨h1, ?_⟩
    rw [h1]
    exact h1
  · intro hex
    have hne : getCol df "RevolvingUtil" ≠ [] := by
      rcases hex with ⟨v, hv, _⟩
      exact List.ne_nil_of_mem hv
    rcases colMax_num hnum hne with ⟨m, hcm, hmmem, hle⟩
    have hm1 : 1 < m := by
      rcases hex with ⟨v, hv, hgt⟩
      exact lt_of_lt_of_le hgt (hle v hv)
    unfold normalizeUtil
    dsimp only
    rw [if_neg (by omega), if_neg (by omega), hcm]
    dsimp only
    rw [if_pos hm1, mapM_divVal100_ok hnum]
    simp only [Except.map]
    rw [getCol_setCol df _ _ hWF (by rw [List.length_map, getCol_length_of_mem hmem])]

/-- C8 witness: no change on the fractional sample utilizations; uniform
division on a percentage-form frame. -/
theorem c8_witness :
    normalizeUtil sampleDf = .ok sampleDf ∧
    (normalizeUtil pctUtilDf).map (fun d => getCol d "RevolvingUtil")
      = .ok [Value.num 0.4, Value.num 0.55] := by
  with_unfolding_all
    exact ⟨((c8_util_normalization sampleDf (by decide) (by decide) (by decide)).1
        (by decide)).1,
      (c8_util_normalization pctUtilDf (by decide) (by decide) (by decide)).2
        ⟨Value.num 40, by decide, by decide⟩⟩

/-!
## Claim C6 (amended): every colliding column is renamed and kept
-/

/-- C6 (amended).  When several raw columns normalize to the same
canonical target, `auto_alias_columns_strict` renames each of them in
place: the output's labels are exactly the positionwise canonical
targets (duplicates included), row values pass through the renaming
unchanged, and no error is raised as long as the duplicated target is
not the utilization column. -/
theorem c6_collision_all_renamed (df : DataFrame)
    (hcount : (df.cols.map aliasTarget).count "RevolvingUtil" ≤ 1)
    (hnum : allNumL (getCol (applyAlias df) "RevolvingUtil") = true) :
    (applyAlias df).cols = df.cols.map aliasTarget ∧
    (applyAlias df).rows = df.rows ∧
    (auto_alias_columns_strict df).map DataFrame.cols = .ok (df.cols.map aliasTarget) := by
  refine ⟨rfl, rfl, ?_⟩
  unfold auto_alias_columns_strict normalizeUtil
  dsimp only
  by_cases h0 : (applyAlias df).cols.count "RevolvingUtil" = 0
  · rw [if_pos h0]
    rfl
  · have hmem : "RevolvingUtil" ∈ (applyAlias df).cols :=
      List.count_pos_iff.mp (Nat.pos_of_ne_zero h0)
    have hle1 : (applyAlias df).cols.count "RevolvingUtil" ≤ 1 := hcount
    rw [if_neg h0, if_neg (by omega)]
    rcases colMax_shape hnum with hnone | ⟨m, hm⟩
    · rw [hnone]
      rfl
    · rw [hm]
      dsimp only
      by_cases hm1 : 1 < m
      · rw [if_pos hm1, mapM_divVal100_ok hnum]
        simp only [Except.map]
        rw [setCol_cols_of_mem hmem]
        rfl
      · rw [if_neg hm1]
        rfl

/-!
## Claim C7: synonym matching and canonical completeness
-/

theorem income_not_util {n : String} (h : n ∈ incomeSyns) : n ∉ utilSyns := by
  simp only [incomeSyns, List.mem_cons, List.not_mem_nil, or_false] at h
  rcases h with rfl | rfl | rfl <;> decide

theorem dpd_not_util {n : String} (h : n ∈ dpdSyns) : n ∉ utilSyns := by
  simp only [dpdSyns, List.mem_cons, List.not_mem_nil, or_false] at h
  rcases h with rfl | rfl | rfl | rfl | rfl <;> decide

theorem dpd_not_income {n : String} (h : n ∈ dpdSyns) : n ∉ incomeSyns := by
  simp only [dpdSyns, List.mem_cons, List.not_mem_nil, or_false] at h
  rcases h with rfl | rfl | rfl | rfl | rfl <;> decide

theorem bal_not_util {n : String} (h : n ∈ balSyns) : n ∉ utilSyns := by
  simp only [balSyns, List.mem_cons, List.not_mem_nil, or_false] at h
  rcases h with rfl | rfl | rfl | rfl <;> decide

theorem bal_not_income {n : String} (h : n ∈ balSyns) : n ∉ incomeSyns := by
  simp only [balSyns, List.mem_cons, List.not_mem_nil, or_false] at h
  rcases h with rfl | rfl | rfl | rfl <;> decide

theorem bal_not_dpd {n : String} (h : n ∈ balSyns) : n ∉ dpdSyns := by
  simp only [balSyns, List.mem_cons, List.not_mem_nil, or_false] at h
  rcases h with rfl | rfl | rfl | rfl <;> decide

theorem aliasTarget_util {c : String} (h : normName c ∈ utilSyns) :
    aliasTarget c = "RevolvingUtil" := by
  unfold aliasTarget
  dsimp only
  rw [if_pos h]

theorem aliasTarget_income {c : String} (h : normName c ∈ incomeSyns) :
    aliasTarget c = "MonthlyIncome" := by
  unfold aliasTarget
  dsimp only
  rw [if_neg (income_not_util h), if_pos h]

theorem aliasTarget_dpd {c : String} (h : normName c ∈ dpdSyns) :
    aliasTarget c = "DPD30_59" := by
  unfold aliasTarget
  dsimp only
  rw [if_neg (dpd_not_util h), if_neg (dpd_not_income h), if_pos h]

theorem aliasTarget_bal {c : String} (h : normName c ∈ balSyns) :
    aliasTarget c = "CurrentBalance" := by
  unfold aliasTarget
  dsimp only
  rw [if_neg (bal_not_util h), if_neg (bal_not_income h), if_neg (bal_not_dpd h),
    if_pos h]

theorem aliasTarget_unmatched {c : String} (h1 : normName c ∉ utilSyns)
    (h2 : normName c ∉ incomeSyns) (h3 : normName c ∉ dpdSyns)
    (h4 : normName c ∉ balSyns) : aliasTarget c = c := by
  unfold aliasTarget
  dsimp only
  rw [if_neg h1, if_neg h2, if_neg h3, if_neg h4]

/-- C7.  A column is mapped to a canonical name exactly when its
normalized form (strip, drop spaces/hyphens/underscores, lowercase)
matches one of the four synonym groups; unmatched columns pass through
unrenamed; and whenever all three mandatory fields are present under
some synonym spelling, a successful resolver output contains all three
canonical names, regardless of header order or casing. -/
theorem c7_resolver_normalization :
    (∀ c : String,
      (normName c ∈ utilSyns → aliasTarget c = "RevolvingUtil") ∧
      (normName c ∈ incomeSyns → aliasTarget c = "MonthlyIncome") ∧
      (normName c ∈ dpdSyns → aliasTarget c = "DPD30_59") ∧
      (normName c ∈ balSyns → aliasTarget c = "CurrentBalance") ∧
      (normName c ∉ utilSyns → normName c ∉ incomeSyns → normName c ∉ dpdSyns →
        normName c ∉ balSyns → aliasTarget c = c)) ∧
    (∀ df d, auto_alias_columns_strict df = .ok d →
      (∃ c ∈ df.cols, normName c ∈ incomeSyns) →
      (∃ c ∈ df.cols, normName c ∈ utilSyns) →
      (∃ c ∈ df.cols, normName c ∈ dpdSyns) →
      "MonthlyIncome" ∈ d.cols ∧ "RevolvingUtil" ∈ d.cols ∧ "DPD30_59" ∈ d.cols) := by
  constructor
  · intro c
    exact ⟨aliasTarget_util, aliasTarget_income, aliasTarget_dpd, aliasTarget_bal,
      aliasTarget_unmatched⟩
  · intro df d hok hinc hutil hdpd
    have hcols : d.cols = df.cols.map aliasTarget := normalizeUtil_ok_cols hok
    rw [hcols]
    refine ⟨?_, ?_, ?_⟩
    · rcases hinc with ⟨c, hc, hsyn⟩
      exact List.mem_map.mpr ⟨c, hc, aliasTarget_income hsyn⟩
    · rcases hutil with ⟨c, hc, hsyn⟩
      exact List.mem_map.mpr ⟨c, hc, aliasTarget_util hsyn⟩
    · rcases hdpd with ⟨c, hc, hsyn⟩
      exact List.mem_map.mpr ⟨c, hc, aliasTarget_dpd hsyn⟩

/-- C7 witness: a synonym header is canonicalized, and a scrambled-case
frame resolves to all three canonical names. -/
theorem c7_witness :
    aliasTarget "Utilization Rate" = "RevolvingUtil" ∧
    ("MonthlyIncome" ∈ (applyAlias c7Df).cols ∧
     "RevolvingUtil" ∈ (applyAlias c7Df).cols ∧
     "DPD30_59" ∈ (applyAlias c7Df).cols) := by
  with_unfolding_all
    exact ⟨(c7_resolver_normalization.1 "Utilization Rate").1 (by decide),
      c7_resolver_normalization.2 c7Df (applyAlias c7Df) (by decide)
        ⟨"income", by decide, by decide⟩
        ⟨"UTILIZATION", by decide, by decide⟩
        ⟨"DPD-30-59", by decide, by decide⟩⟩

/-!
## lookupLast and sorted-key lemmas (for the lineage hash claims)
-/

theorem lookupLast_eq_none {k : String} :
    ∀ {r : List (String × Value)}, lookupLast k r = none ↔ k ∉ r.map Prod.fst := by
  intro r
  induction r with
  | nil => simp [lookupLast]
  | cons p ps ih =>
    simp only [lookupLast, List.map_cons, List.mem_cons]
    cases hps : lookupLast k ps with
    | some v =>
      have hk : k ∈ List.map Prod.fst ps := by
        by_contra hc
        have hnone := ih.mpr hc
        rw [hps] at hnone
        exact Option.noConfusion hnone
      simp [hk]
    | none =>
      have hnm : k ∉ List.map Prod.fst ps := ih.mp hps
      by_cases hpk : p.1 = k
      · simp [hpk]
      · have hkp : ¬ k = p.1 := fun h => hpk h.symm
        simp [hpk, hnm, hkp]

theorem lookupLast_perm {r1 r2 : List (String × Value)} (h : r1.Perm r2)
    (hnd : (r1.map Prod.fst).Nodup) (k : String) :
    lookupLast k r1 = lookupLast k r2 := by
  induction h with
  | nil => rfl
  | cons x p ih =>
    rename_i l1 l2
    simp only [List.map_cons, List.nodup_cons] at hnd
    simp only [lookupLast, ih hnd.2]
  | swap x y l =>
    simp only [List.map_cons, List.nodup_cons, List.mem_cons] at hnd
    have hxy : y.1 ≠ x.1 := fun h => hnd.1 (Or.inl h)
    simp only [lookupLast]
    cases lookupLast k l with
    | some v => rfl
    | none =>
      by_cases hx : x.1 = k <;> by_cases hy : y.1 = k
      · exact absurd (hy.trans hx.symm) hxy
      · simp [hx, hy]
      · simp [hx, hy]
      · simp [hx, hy]
  | trans p1 p2 ih1 ih2 =>
    rename_i l1 l2 l3
    have hnd2 : (l2.map Prod.fst).Nodup := (p1.map Prod.fst).nodup hnd
    rw [ih1 hnd, ih2 hnd2]

theorem sortStrings_eq_of_perm {l1 l2 : List String} (h : l1.Perm l2) :
    sortStrings l1 = sortStrings l2 := by
  unfold sortStrings
  exact List.eq_of_perm_of_sorted
    (((List.perm_insertionSort _ l1).trans h).trans
      (List.perm_insertionSort _ l2).symm)
    (List.sorted_insertionSort _ l1)
    (List.sorted_insertionSort _ l2)

theorem serializeRecord_perm {r1 r2 : List (String × Value)}
    (hperm : r1.Perm r2) (hnd : (r1.map Prod.fst).Nodup) :
    serializeRecord r1 = serializeRecord r2 := by
  unfold serializeRecord
  have hks : sortStrings ((r1.map Prod.fst).dedup) = sortStrings ((r2.map Prod.fst).dedup) :=
    sortStrings_eq_of_perm (hperm.map Prod.fst).dedup
  have hfun : (fun k => (k, (lookupLast k r1).getD (Value.str "")))
      = (fun k => (k, (lookupLast k r2).getD (Value.str ""))) := by
    funext k
    rw [lookupLast_perm hperm hnd k]
  rw [hks, hfun]

/-!
## Claim C5: lineage hash determinism and order independence
-/

/-- C5.  The per-row hash `add_metadata` computes (serialize the row dict
with sorted keys, SHA-256, first 8 hex characters) is order-independent:
two records with the same bindings supplied in different column orders
get identical hashes. -/
theorem c5_lineage_hash_order_independent (r1 r2 : List (String × Value))
    (hnd : (r1.map Prod.fst).Nodup) (hperm : r1.Perm r2) :
    rowHash r1 = rowHash r2 := by
  unfold rowHash
  rw [serializeRecord_perm hperm hnd]

/-- C5 witness: two column orders of the same record hash identically. -/
theorem c5_witness :
    rowHash [("MonthlyIncome", Value.str "5000"), ("RevolvingUtil", Value.str "0.4"),
        ("DPD30_59", Value.str "0")]
      = rowHash [("DPD30_59", Value.str "0"), ("RevolvingUtil", Value.str "0.4"),
        ("MonthlyIncome", Value.str "5000")] :=
  c5_lineage_hash_order_independent _ _ (by decide) (by decide)

/-!
## Serialization injectivity at one key (for the metadata-fingerprint claim)
-/

theorem strApp_cancel_left {a b c : String} (h : a ++ b = a ++ c) : b = c := by
  have hd := congrArg String.data h
  rw [String.data_append, String.data_append] at hd
  exact String.ext (List.append_cancel_left hd)

theorem strApp_cancel_right {a b c : String} (h : a ++ c = b ++ c) : a = b := by
  have hd := congrArg String.data h
  rw [String.data_append, String.data_append] at hd
  exact String.ext (List.append_cancel_right hd)

theorem serPairs_cons_ne (p : String × Value) (ps : List (String × Value))
    (h : ps ≠ []) : serPairs (p :: ps) = serPair p ++ (", " ++ serPairs ps) := by
  cases ps with
  | nil => exact absurd rfl h
  | cons b bs => rfl

theorem escapeChar_plain {c : Char} (h : plainChar c = true) :
    escapeChar c = String.singleton c := by
  simp only [plainChar, Bool.and_eq_true, decide_eq_true_eq] at h
  obtain ⟨⟨⟨h1, h2⟩, h3⟩, h4⟩ := h
  have hn : c ≠ '\n' := by
    intro hc
    rw [hc] at h1
    exact absurd h1 (by decide)
  have ht : c ≠ '\t' := by
    intro hc
    rw [hc] at h1
    exact absurd h1 (by decide)
  have hr : c ≠ '\r' := by
    intro hc
    rw [hc] at h1
    exact absurd h1 (by decide)
  have h8 : ¬ (c.toNat = 8) := by omega
  have h12 : ¬ (c.toNat = 12) := by omega
  have hu : ¬ (c.toNat < 32 ∨ 126 < c.toNat) := by omega
  simp only [escapeChar, h3, h4, hn, ht, hr, h8, h12, hu, if_false]

theorem escList_plain {l : List Char} (h : l.all plainChar = true) : escList l = l := by
  induction l with
  | nil => rfl
  | cons c cs ih =>
    simp only [List.all_cons, Bool.and_eq_true] at h
    unfold escList
    rw [escapeChar_plain h.1, ih h.2]
    rfl

theorem escapeJson_plain {s : String} (h : plainStr s = true) : escapeJson s = s := by
  unfold plainStr at h
  unfold escapeJson
  rw [escList_plain h]

theorem serPair_str_inj {K s1 s2 : String} (hp1 : plainStr s1 = true)
    (hp2 : plainStr s2 = true)
    (h : serPair (K, Value.str s1) = serPair (K, Value.str s2)) : s1 = s2 := by
  unfold serPair at h
  dsimp only at h
  have h2 : serVal (Value.str s1) = serVal (Value.str s2) := strApp_cancel_left h
  have h3 : jsonStr s1 = jsonStr s2 := h2
  unfold jsonStr at h3
  rw [escapeJson_plain hp1, escapeJson_plain hp2] at h3
  exact strApp_cancel_left (strApp_cancel_right h3)

theorem serPairs_middle : ∀ (A : List (String × Value)) {x y : String × Value}
    (B : List (String × Value)),
    serPairs (A ++ x :: B) = serPairs (A ++ y :: B) → serPair x = serPair y := by
  intro A
  induction A with
  | nil =>
    intro x y B h
    simp only [List.nil_append] at h
    cases B with
    | nil => simpa [serPairs] using h
    | cons b bs =>
      rw [serPairs_cons_ne x (b :: bs) (by simp), serPairs_cons_ne y (b :: bs) (by simp)] at h
      exact strApp_cancel_right h
  | cons a A ih =>
    intro x y B h
    rw [List.cons_append, List.cons_append,
      serPairs_cons_ne a (A ++ x :: B) (by simp),
      serPairs_cons_ne a (A ++ y :: B) (by simp)] at h
    exact ih B (strApp_cancel_left (strApp_cancel_left h))

/-- Two records with the same key sequence whose dict values agree except
at one key `K`, where they hold distinct plain strings, serialize to
distinct JSON texts. -/
theorem serializeRecord_ne {r1 r2 : List (String × Value)} {K s1 s2 : String}
    (hkeys : r1.map Prod.fst = r2.map Prod.fst)
    (hK : K ∈ r1.map Prod.fst)
    (hv1 : lookupLast K r1 = some (.str s1))
    (hv2 : lookupLast K r2 = some (.str s2))
    (hoth : ∀ k, k ≠ K → lookupLast k r1 = lookupLast k r2)
    (hp1 : plainStr s1 = true) (hp2 : plainStr s2 = true)
    (hne : s1 ≠ s2) :
    serializeRecord r1 ≠ serializeRecord r2 := by
  intro h
  unfold serializeRecord at h
  rw [← hkeys] at h
  have h1 : serPairs ((sortStrings ((r1.map Prod.fst).dedup)).map
        (fun k => (k, (lookupLast k r1).getD (Value.str ""))))
      = serPairs ((sortStrings ((r1.map Prod.fst).dedup)).map
        (fun k => (k, (lookupLast k r2).getD (Value.str "")))) :=
    strApp_cancel_left (strApp_cancel_right h)
  have hKks : K ∈ sortStrings ((r1.map Prod.fst).dedup) :=
    (List.perm_insertionSort _ _).mem_iff.mpr (List.mem_dedup.mpr hK)
  have hnodup : (sortStrings ((r1.map Prod.fst).dedup)).Nodup :=
    ((List.perm_insertionSort _ _).symm).nodup (List.nodup_dedup _)
  rcases List.append_of_mem hKks with ⟨a, b, hab⟩
  rw [hab] at hnodup
  have hmid := (List.nodup_cons.mp (List.nodup_middle.mp hnodup)).1
  have hKa : K ∉ a := fun hm => hmid (List.mem_append.mpr (Or.inl hm))
  have hKb : K ∉ b := fun hm => hmid (List.mem_append.mpr (Or.inr hm))
  rw [hab] at h1
  simp only [List.map_append, List.map_cons] at h1
  rw [hv1, hv2] at h1
  simp only [Option.getD_some] at h1
  have hA : a.map (fun k => (k, (lookupLast k r1).getD (Value.str "")))
      = a.map (fun k => (k, (lookupLast k r2).getD (Value.str ""))) :=
    List.map_congr_left (fun k hk => by
      rw [hoth k (fun he => hKa (he ▸ hk))])
  have hB : b.map (fun k => (k, (lookupLast k r1).getD (Value.str "")))
      = b.map (fun k => (k, (lookupLast k r2).getD (Value.str ""))) :=
    List.map_congr_left (fun k hk => by
      rw [hoth k (fun he => hKb (he ▸ hk))])
  rw [hA, hB] at h1
  exact hne (serPair_str_inj hp1 hp2 (serPairs_middle _ _ h1))

/-!
## setPair / tagRecord dictionary lemmas
-/

theorem keys_map_replace (k : String) (v : Value) (r : List (String × Value)) :
    (r.map (fun p => if p.1 = k then (p.1, v) else p)).map Prod.fst = r.map Prod.fst := by
  rw [List.map_map]
  exact List.map_congr_left (fun p _ => by by_cases h : p.1 = k <;> simp [h])

theorem mapfst_setPair (r : List (String × Value)) (k : String) (v : Value) :
    (setPair r k v).map Prod.fst
      = if k ∈ r.map Prod.fst then r.map Prod.fst else r.map Prod.fst ++ [k] := by
  unfold setPair
  by_cases h : k ∈ r.map Prod.fst
  · rw [if_pos h, if_pos h, keys_map_replace]
  · rw [if_neg h, if_neg h]
    simp

theorem lookupLast_map_replace {k : String} (v : Value) :
    ∀ {r : List (String × Value)}, k ∈ r.map Prod.fst →
      lookupLast k (r.map (fun p => if p.1 = k then (p.1, v) else p)) = some v := by
  intro r
  induction r with
  | nil =>
    intro h
    simp at h
  | cons p ps ih =>
    intro h
    simp only [List.map_cons, lookupLast]
    by_cases hps : k ∈ ps.map Prod.fst
    · rw [ih hps]
    · have hnone : lookupLast k (ps.map (fun p => if p.1 = k then (p.1, v) else p))
          = none := by
        rw [lookupLast_eq_none, keys_map_replace]
        exact hps
      rw [hnone]
      have hpk : p.1 = k := by
        rw [List.map_cons] at h
        rcases List.mem_cons.mp h with h1 | h2
        · exact h1.symm
        · exact absurd h2 hps
      simp [hpk]

theorem lookupLast_append_single (k : String) (v : Value) :
    ∀ (r : List (String × Value)), lookupLast k (r ++ [(k, v)]) = some v := by
  intro r
  induction r with
  | nil => simp [lookupLast]
  | cons p ps ih =>
    rw [List.cons_append]
    unfold lookupLast
    rw [ih]

theorem lookupLast_setPair_self (r : List (String × Value)) (k : String) (v : Value) :
    lookupLast k (setPair r k v) = some v := by
  unfold setPair
  by_cases h : k ∈ r.map Prod.fst
  · rw [if_pos h]
    exact lookupLast_map_replace v h
  · rw [if_neg h]
    exact lookupLast_append_single k v r

theorem lookupLast_map_replace_ne {k' k : String} (hne : k' ≠ k) (v : Value) :
    ∀ (r : List (String × Value)),
      lookupLast k' (r.map (fun p => if p.1 = k then (p.1, v) else p))
        = lookupLast k' r := by
  intro r
  induction r with
  | nil => rfl
  | cons p ps ih =>
    simp only [List.map_cons, lookupLast, ih]
    cases lookupLast k' ps with
    | some w => rfl
    | none =>
      by_cases hpk : p.1 = k
      · have hnk : ¬ (p.1 = k') := fun h2 => hne (h2.symm.trans hpk)
        have hkk : ¬ (k = k') := fun h2 => hne h2.symm
        simp [hpk, hnk, hkk]
      · simp [hpk]

theorem lookupLast_append_single_ne {k' k : String} (hne : k' ≠ k) (v : Value) :
    ∀ (r : List (String × Value)), lookupLast k' (r ++ [(k, v)]) = lookupLast k' r := by
  intro r
  induction r with
  | nil =>
    have : ¬ (k = k') := fun h => hne h.symm
    simp [lookupLast, this]
  | cons p ps ih =>
    rw [List.cons_append]
    unfold lookupLast
    rw [ih]

theorem lookupLast_setPair_ne {k' k : String} (hne : k' ≠ k) (r : List (String × Value))
    (v : Value) : lookupLast k' (setPair r k v) = lookupLast k' r := by
  unfold setPair
  by_cases h : k ∈ r.map Prod.fst
  · rw [if_pos h]
    exact lookupLast_map_replace_ne hne v r
  · rw [if_neg h]
    exact lookupLast_append_single_ne hne v r

theorem tagRecord_keys (r : List (String × Value)) (rd1 rd2 pc1 pc2 : String) :
    (tagRecord r rd1 pc1).map Prod.fst = (tagRecord r rd2 pc2).map Prod.fst := by
  unfold tagRecord
  rw [mapfst_setPair, mapfst_setPair, mapfst_setPair, mapfst_setPair]

theorem tagRecord_rd (r : List (String × Value)) (rd pc : String) :
    lookupLast "ReportingDate" (tagRecord r rd pc) = some (.str rd) := by
  unfold tagRecord
  rw [lookupLast_setPair_ne (by decide), lookupLast_setPair_self]

theorem tagRecord_pc (r : List (String × Value)) (rd pc : String) :
    lookupLast "ProductCode" (tagRecord r rd pc) = some (.str pc) :=
  lookupLast_setPair_self _ _ _

theorem tagRecord_other {k : String} (hrd : k ≠ "ReportingDate")
    (hpc : k ≠ "ProductCode") (r : List (String × Value)) (rd pc : String) :
    lookupLast k (tagRecord r rd pc) = lookupLast k r := by
  unfold tagRecord
  rw [lookupLast_setPair_ne hpc, lookupLast_setPair_ne hrd]

/-!
## Row-level view of the tagger (bridging DataFrame and record dicts)
-/

theorem zip_self_map {α β : Type} (l : List α) (f : α → β) :
    l.zip (l.map f) = l.map (fun x => (x, f x)) := by
  induction l with
  | nil => rfl
  | cons x xs ih => simp only [List.map_cons, List.zip_cons_cons, ih]

theorem zip_putCell (c : String) (v : Value) :
    ∀ (cols : List String) (r : List Value),
      cols.zip (putCell cols c r v)
        = (cols.zip r).map (fun p => if p.1 = c then (p.1, v) else p) := by
  intro cols
  induction cols with
  | nil => intro r; rfl
  | cons k ks ih =>
    intro r
    cases r with
    | nil => rfl
    | cons x xs =>
      by_cases h : k = c <;>
        simp [putCell, List.zip_cons_cons, List.map_cons, ih, h]

theorem zip_append_single {c : String} {v : Value} :
    ∀ (cols : List String) (r : List Value), r.length = cols.length →
      (cols ++ [c]).zip (r ++ [v]) = cols.zip r ++ [(c, v)] := by
  intro cols
  induction cols with
  | nil =>
    intro r h
    rw [List.length_nil, List.length_eq_zero] at h
    subst h
    rfl
  | cons k ks ih =>
    intro r h
    cases r with
    | nil => simp at h
    | cons x xs =>
      simp only [List.length_cons, Nat.succ.injEq] at h
      simp only [List.cons_append, List.zip_cons_cons, ih xs h]

theorem putCell_length (c : String) (v : Value) :
    ∀ (cols : List String) (r : List Value), (putCell cols c r v).length = r.length := by
  intro cols
  induction cols with
  | nil => intro r; cases r <;> rfl
  | cons k ks ih =>
    intro r
    cases r with
    | nil => rfl
    | cons x xs => simp [putCell, ih]

theorem setColConst_WF {df : DataFrame} (c : String) (v : Value) (hWF : df.WF) :
    (setColConst df c v).WF := by
  unfold setColConst setCol
  by_cases h : c ∈ df.cols
  · rw [if_pos h]
    intro r hr
    simp only [List.mem_map] at hr
    rcases hr with ⟨rv, hrv, rfl⟩
    obtain ⟨r1, v1⟩ := rv
    rw [putCell_length]
    exact hWF r1 (List.of_mem_zip hrv).1
  · rw [if_neg h]
    intro r hr
    simp only [List.mem_map] at hr
    rcases hr with ⟨rv, hrv, rfl⟩
    obtain ⟨r1, v1⟩ := rv
    simp only [List.length_append, List.length_cons, List.length_nil]
    rw [hWF r1 (List.of_mem_zip hrv).1]

theorem recordsOf_setColConst (df : DataFrame) (c : String) (v : Value) (hWF : df.WF) :
    recordsOf (setColConst df c v) = (recordsOf df).map (fun r => setPair r c v) := by
  unfold recordsOf setColConst setCol
  by_cases h : c ∈ df.cols
  · rw [if_pos h]
    dsimp only
    rw [zip_self_map]
    simp only [List.map_map]
    apply List.map_congr_left
    intro r hr
    simp only [Function.comp_apply]
    rw [zip_putCell]
    unfold setPair
    rw [if_pos (by
      rw [List.map_fst_zip _ _ (le_of_eq (hWF r hr).symm)]
      exact h)]
  · rw [if_neg h]
    dsimp only
    rw [zip_self_map]
    simp only [List.map_map]
    apply List.map_congr_left
    intro r hr
    simp only [Function.comp_apply]
    rw [zip_append_single df.cols r (hWF r hr)]
    unfold setPair
    rw [if_neg (by
      rw [List.map_fst_zip _ _ (le_of_eq (hWF r hr).symm)]
      exact h)]

theorem add_metadata_getCol_hashes (df : DataFrame) (rd pc : String) (hWF : df.WF) :
    getCol (add_metadata df rd pc) "LineageHash"
      = (recordsOf df).map (fun r => Value.str (rowHash (tagRecord r rd pc))) := by
  unfold add_metadata
  have hWF1 : (setColConst df "ReportingDate" (Value.str rd)).WF :=
    setColConst_WF _ _ hWF
  have hWF2 : (setColConst (setColConst df "ReportingDate" (Value.str rd))
      "ProductCode" (Value.str pc)).WF := setColConst_WF _ _ hWF1
  rw [getCol_setCol _ _ _ hWF2 (by rw [List.length_map])]
  have hrec : recordsOf (setColConst (setColConst df "ReportingDate" (Value.str rd))
        "ProductCode" (Value.str pc))
      = (recordsOf df).map (fun r => tagRecord r rd pc) := by
    rw [recordsOf_setColConst _ _ _ hWF1, recordsOf_setColConst _ _ _ hWF,
      List.map_map]
    rfl
  have hview : (setColConst (setColConst df "ReportingDate" (Value.str rd))
          "ProductCode" (Value.str pc)).rows.map
        (fun row => Value.str (rowHash
          ((setColConst (setColConst df "ReportingDate" (Value.str rd))
            "ProductCode" (Value.str pc)).cols.zip row)))
      = (recordsOf (setColConst (setColConst df "ReportingDate" (Value.str rd))
          "ProductCode" (Value.str pc))).map (fun r => Value.str (rowHash r)) := by
    unfold recordsOf
    rw [List.map_map]
    rfl
  rw [hview, hrec, List.map_map]
  rfl

/-!
## Claim C10: the lineage hash covers the broadcast metadata
-/

/-- C10.  `add_metadata` assigns the reporting date and product code to
every record before hashing: the `LineageHash` column is the row-wise
hash of the metadata-enriched records; and for every record, two
different (plain-text) reporting dates — or two different product codes —
produce two different serialized forms, so the hash fingerprints the
record together with its reporting metadata. -/
theorem c10_hash_includes_metadata :
    (∀ df rd pc, df.WF →
      getCol (add_metadata df rd pc) "LineageHash"
        = (recordsOf df).map (fun r => Value.str (rowHash (tagRecord r rd pc)))) ∧
    (∀ (r : List (String × Value)) (rd1 rd2 pc : String),
      plainStr rd1 = true → plainStr rd2 = true → rd1 ≠ rd2 →
      serializeRecord (tagRecord r rd1 pc) ≠ serializeRecord (tagRecord r rd2 pc)) ∧
    (∀ (r : List (String × Value)) (rd pc1 pc2 : String),
      plainStr pc1 = true → plainStr pc2 = true → pc1 ≠ pc2 →
      serializeRecord (tagRecord r rd pc1) ≠ serializeRecord (tagRecord r rd pc2)) := by
  refine ⟨fun df rd pc h => add_metadata_getCol_hashes df rd pc h, ?_, ?_⟩
  · intro r rd1 rd2 pc hp1 hp2 hne
    have hK : "ReportingDate" ∈ (tagRecord r rd1 pc).map Prod.fst := by
      by_contra hc
      have h0 := lookupLast_eq_none.mpr hc
      rw [tagRecord_rd] at h0
      exact Option.noConfusion h0
    have hoth : ∀ k, k ≠ "ReportingDate" →
        lookupLast k (tagRecord r rd1 pc) = lookupLast k (tagRecord r rd2 pc) := by
      intro k hk
      by_cases hkpc : k = "ProductCode"
      · subst hkpc
        rw [tagRecord_pc, tagRecord_pc]
      · rw [tagRecord_other hk hkpc, tagRecord_other hk hkpc]
    exact serializeRecord_ne (tagRecord_keys r rd1 rd2 pc pc) hK
      (tagRecord_rd r rd1 pc) (tagRecord_rd r rd2 pc) hoth hp1 hp2 hne
  · intro r rd pc1 pc2 hp1 hp2 hne
    have hK : "ProductCode" ∈ (tagRecord r rd pc1).map Prod.fst := by
      by_contra hc
      have h0 := lookupLast_eq_none.mpr hc
      rw [tagRecord_pc] at h0
      exact Option.noConfusion h0
    have hoth : ∀ k, k ≠ "ProductCode" →
        lookupLast k (tagRecord r rd pc1) = lookupLast k (tagRecord r rd pc2) := by
      intro k hk
      by_cases hkrd : k = "ReportingDate"
      · subst hkrd
        rw [tagRecord_rd, tagRecord_rd]
      · rw [tagRecord_other hkrd hk, tagRecord_other hkrd hk]
    exact serializeRecord_ne (tagRecord_keys r rd rd pc1 pc2) hK
      (tagRecord_pc r rd pc1) (tagRecord_pc r rd pc2) hoth hp1 hp2 hne

/-- C10 witness: the hash column of the tagged sample is the row-wise
metadata-enriched hash, and changing the reporting date (or the product
code) changes the serialized form of a concrete record. -/
theorem c10_witness :
    getCol (add_metadata sampleDf "2025-03-31" "CCARD") "LineageHash"
      = (recordsOf sampleDf).map
          (fun r => Value.str (rowHash (tagRecord r "2025-03-31" "CCARD"))) ∧
    serializeRecord (tagRecord [("MonthlyIncome", Value.str "5000")] "2025-03-31" "CCARD")
      ≠ serializeRecord
          (tagRecord [("MonthlyIncome", Value.str "5000")] "2025-06-30" "CCARD") ∧
    serializeRecord (tagRecord [("MonthlyIncome", Value.str "5000")] "2025-03-31" "CCARD")
      ≠ serializeRecord
          (tagRecord [("MonthlyIncome", Value.str "5000")] "2025-03-31" "AUTO") :=
  ⟨c10_hash_includes_metadata.1 sampleDf "2025-03-31" "CCARD" (by decide),
   c10_hash_includes_metadata.2.1 _ _ _ _ (by decide) (by decide) (by decide),
   c10_hash_includes_metadata.2.2 _ _ _ _ (by decide) (by decide) (by decide)⟩

/-- C6 witness: the amended statement evaluated on the frame with two
income spellings. -/
theorem c6_collision_witness :
    (applyAlias dupIncomeDf).cols
      = ["MonthlyIncome", "MonthlyIncome", "RevolvingUtil", "DPD30_59"] ∧
    (applyAlias dupIncomeDf).rows = [[Value.num 1000, Value.num 2000, Value.num 0.5,
      Value.num 0]] ∧
    (auto_alias_columns_strict dupIncomeDf).map DataFrame.cols
      = .ok ["MonthlyIncome", "MonthlyIncome", "RevolvingUtil", "DPD30_59"] := by
  with_unfolding_all
    exact c6_collision_all_renamed dupIncomeDf (by decide) (by decide)

end Y14M
